import Mathlib

/-!
Verification of the update-orchestration core of an ECS OS updater.

The definitions below are shallow embeddings of the Go functions in the
updater package (aws.go and main.go).  Remote AWS calls are modelled by
environment records that fix the outcome of each call; Go (value, error)
returns are modelled with Except; Go errors are modelled by GoErr, keeping
the fmt.Errorf wrapping structure.
-/

/-- Go error values: either a leaf message or a message wrapping an inner
error, mirroring fmt.Errorf with a %w verb. -/
inductive GoErr where
  | base (msg : String)
  | wrap (msg : String) (inner : GoErr)
deriving Repr, DecidableEq

/-- Result of a Go call returning (T, error). -/
abbrev Res (α : Type) := Except GoErr α

-- Constants from aws.go.
def ecsPageSize : Nat := 100
def ssmPageSize : Nat := 50
def updateStateIdle : String := "Idle"
def updateStateStaged : String := "Staged"
def updateStateAvailable : String := "Available"
def updateStateReady : String := "Ready"

/-- JSON values, for the ssm command output handled by parseCommandOutput.
Raw bytes that are not valid JSON behave exactly like any JSON value of a
non-object shape (both make json.Unmarshal fail), so they are represented
by such values. -/
inductive Json where
  | null
  | bool (b : Bool)
  | num (n : Int)
  | str (s : String)
  | arr (elems : List Json)
  | obj (fields : List (String × Json))

deriving instance DecidableEq for Except

/-- ASCII lower-casing of a character (JSON keys here are ASCII). -/
def lowerChar (c : Char) : Char :=
  if 65 ≤ c.toNat && c.toNat ≤ 90 then Char.ofNat (c.toNat + 32) else c

/-- ASCII lower-casing of a string. -/
def lowerStr (s : String) : String :=
  ⟨s.data.map lowerChar⟩

/-- Go json field resolution matches the struct tag exactly or, failing
that, case-insensitively. -/
def keyMatches (tag key : String) : Bool :=
  tag == key || lowerStr tag == lowerStr key

/-- Resolve a struct tag against the keys of a JSON object.  Go decodes
keys in input order and later duplicates overwrite earlier ones, so the
last matching key wins. -/
def jsonField (fields : List (String × Json)) (tag : String) : Option Json :=
  fields.foldl (fun acc kv => if keyMatches tag kv.fst then some kv.snd else acc) none

/-- Decode a JSON value into a Go string field: an absent field or a JSON
null leaves the zero value "", a string decodes to itself, anything else
is an unmarshal type error. -/
def getStringField (v : Option Json) : Res String :=
  match v with
  | none => .ok ""
  | some .null => .ok ""
  | some (.str s) => .ok s
  | some _ => .error (.base "cannot unmarshal value into string field")

structure imageInfo where
  Version : String
deriving Repr, DecidableEq

structure partitionInfo where
  Image : imageInfo
deriving Repr, DecidableEq

/-- The checkOutput struct from aws.go: the parsed output of the update
check document. -/
structure checkOutput where
  UpdateState : String
  ActivePartition : partitionInfo
deriving Repr, DecidableEq

def decodeImage (v : Option Json) : Res imageInfo :=
  match v with
  | none => .ok { Version := "" }
  | some .null => .ok { Version := "" }
  | some (.obj fields) => do
      let ver ← getStringField (jsonField fields "version")
      pure { Version := ver }
  | some _ => .error (.base "cannot unmarshal value into image field")

def decodePartition (v : Option Json) : Res partitionInfo :=
  match v with
  | none => .ok { Image := { Version := "" } }
  | some .null => .ok { Image := { Version := "" } }
  | some (.obj fields) => do
      let img ← decodeImage (jsonField fields "image")
      pure { Image := img }
  | some _ => .error (.base "cannot unmarshal value into active_partition field")

/-- json.Unmarshal of a JSON value into the checkOutput struct.  A
top-level null is a no-op that leaves the zero value; a non-object fails. -/
def decodeCheckOutput (j : Json) : Res checkOutput :=
  match j with
  | .null => .ok { UpdateState := "", ActivePartition := { Image := { Version := "" } } }
  | .obj fields => do
      let us ← getStringField (jsonField fields "update_state")
      let ap ← decodePartition (jsonField fields "active_partition")
      pure { UpdateState := us, ActivePartition := ap }
  | _ => .error (.base "cannot unmarshal value into checkOutput")

/-- parseCommandOutput from aws.go: unmarshal the command output and
require the two mandatory fields to be non-empty. -/
def parseCommandOutput (commandOutput : Json) : Res checkOutput :=
  match decodeCheckOutput commandOutput with
  | .error e => .error (.wrap "failed to unmarshal json" e)
  | .ok output =>
      if output.UpdateState == "" || output.ActivePartition.Image.Version == "" then
        .error (.base "mandatory fields are not available")
      else
        .ok output

/-!  ## Pagination helper (eachPage, aws.go)

The Go callback closes over mutable locals of its caller; the embedding
threads that state explicitly as a value of type sigma.  The loop is
embedded with a fuel argument set to the input length: with a positive
window size the loop runs at most inputLen iterations, so the fuel is
never exhausted (for a window size of 0 the Go loop would not terminate;
both callers pass the positive constants ecsPageSize and ssmPageSize). -/

def eachPageAux {σ : Type} (inputLen size : Nat)
    (fn : Nat → Nat → σ → σ × Option GoErr) :
    Nat → Nat → Nat → σ → (Nat × Option GoErr) × σ
  | 0, _, pageCount, s => ((pageCount, none), s)
  | fuel + 1, start, pageCount, s =>
    if start < inputLen then
      match fn start (min (start + size) inputLen) s with
      | (s', some err) => ((0, some err), s')
      | (s', none) => eachPageAux inputLen size fn fuel (start + size) (pageCount + 1) s'
    else
      ((pageCount, none), s)

/-- eachPage from aws.go: run the callback over consecutive windows of at
most the given size, returning the page count and the first error. -/
def eachPage {σ : Type} (inputLen size : Nat)
    (fn : Nat → Nat → σ → σ × Option GoErr) (s : σ) : (Nat × Option GoErr) × σ :=
  eachPageAux inputLen size fn inputLen 0 0 s

/-- The list of (start, stop) windows that the eachPage loop walks. -/
def pagesAux (inputLen size : Nat) : Nat → Nat → List (Nat × Nat)
  | 0, _ => []
  | fuel + 1, start =>
    if start < inputLen then
      (start, min (start + size) inputLen) :: pagesAux inputLen size fuel (start + size)
    else
      []

def pages (inputLen size : Nat) : List (Nat × Nat) :=
  pagesAux inputLen size inputLen 0

/-- Folding a stateful callback over an explicit window list, stopping at
the first error, counting the processed windows as the Go loop does. -/
def foldPages {σ : Type} (fn : Nat → Nat → σ → σ × Option GoErr) :
    List (Nat × Nat) → Nat → σ → (Nat × Option GoErr) × σ
  | [], pageCount, s => ((pageCount, none), s)
  | p :: ps, pageCount, s =>
    match fn p.1 p.2 s with
    | (s', some err) => ((0, some err), s')
    | (s', none) => foldPages fn ps (pageCount + 1) s'

def fnC5 : Nat → Nat → Unit → Unit × Option GoErr := fun _ _ s => (s, none)

/-!  ## Command driver (sendCommand, aws.go)

sendCommand posts an SSM document to a set of instances and spawns one
waiter goroutine per instance; warning logs and the logCommmandOutput
call on waiter failure are read-only and not modelled.  The waiters
write their errors to a channel; the arrival field of the environment is
the order in which failed waiters deliver (a permutation of the targets,
filtered to those that fail). -/

structure SendEnv where
  /-- Outcome of the SendCommand API call: the new command id, or a
  transport error. -/
  sendRes : Res String
  /-- Outcome of WaitUntilCommandExecutedWithContext per instance id:
  none on success, the waiter error otherwise. -/
  waitErr : String → Option GoErr
  /-- Completion order of the waiter goroutines. -/
  arrival : List String

/-- The receive loop over the error channel: errCount is incremented per
received error and the loop returns the error that made errCount reach
instanceCount, if any. -/
def drainErrChan (errs : List GoErr) (instanceCount errCount : Nat) : Option GoErr :=
  match errs with
  | [] => none
  | e :: rest =>
      if errCount + 1 = instanceCount then some e
      else drainErrChan rest instanceCount (errCount + 1)

/-- sendCommand from aws.go. -/
def sendCommand (env : SendEnv) (instanceIDs : List String) : Res String :=
  match env.sendRes with
  | .error e => .error (.wrap "send command failed" e)
  | .ok commandID =>
    match drainErrChan (env.arrival.filterMap env.waitErr) instanceIDs.length 0 with
    | some e => .error (.wrap "too many failures while awaiting document execution" e)
    | none => .ok commandID

def envC2 : SendEnv :=
  { sendRes := .ok "cmd-1"
    waitErr := fun i => if i = "inst-1" then some (.base "exceeded max attempts") else none
    arrival := ["inst-1", "inst-2"] }

/-!  ## Paged collection pattern shared by the two filters

Both filterBottlerocketInstances and filterAvailableUpdates run eachPage
with a callback that, per window, either collects items from a window
computation or counts the window's failure, remembering the last error;
both then fail only if every window failed. -/

/-- getCommandResult from aws.go: fetch the invocation and require the
Success status (the instance and command ids and the exact message text
are not tracked). -/
structure Invocation where
  Status : String
  StandardOutputContent : Json

def commandInvocationStatusSuccess : String := "Success"

def getCommandResult (res : Res Invocation) : Res Json :=
  match res with
  | .error e => .error (.wrap "failed to retrieve command invocation output" e)
  | .ok resp =>
      if resp.Status ≠ commandInvocationStatusSuccess then
        .error (.base ("command has not reached success status, current status " ++ resp.Status))
      else
        .ok resp.StandardOutputContent

/-- The instance struct from aws.go (named Instance as instance is a
reserved word here). -/
structure Instance where
  instanceID : String
  containerInstanceID : String
  bottlerocketVersion : String
deriving Repr, DecidableEq

/-- The mutable locals that the per-window closures of the two filters
share: the collected items, the failed-window count, the last error. -/
structure PageAcc (α : Type) where
  acc : List α
  errCount : Nat
  lastErr : Option GoErr
deriving Repr

/-- One filter window: on failure count the error and keep going, on
success append the window's items. -/
def pageCollect {α : Type} (h : Nat → Nat → Res (List α))
    (start stop : Nat) (st : PageAcc α) : PageAcc α × Option GoErr :=
  match h start stop with
  | .error e => ({ st with errCount := st.errCount + 1, lastErr := some e }, none)
  | .ok xs => ({ st with acc := st.acc ++ xs }, none)

def collectOk {α : Type} (r : Res (List α)) : List α :=
  match r with
  | .error _ => []
  | .ok xs => xs

def isErrRes {α : Type} (r : Res α) : Bool :=
  match r with
  | .error _ => true
  | .ok _ => false

def lastErrAcc {α : Type} (h : Nat → Nat → Res (List α))
    (ps : List (Nat × Nat)) (le : Option GoErr) : Option GoErr :=
  ps.foldl (fun acc p => match h p.1 p.2 with | .error e => some e | .ok _ => acc) le

/-- fmt.Errorf("...: %w", lastErr) for the all-windows-failed error.  The
none case only happens for an empty window list, where Go still builds a
non-nil error (around a nil cause). -/
def wrapLast (msg : String) (le : Option GoErr) : GoErr :=
  match le with
  | some e => .wrap msg e
  | none => .base msg

/-- Shared tail of the two paged filters: run eachPage with a collecting
window callback over the whole input, propagate a callback error (never
produced by pageCollect), and fail only when every window failed. -/
def pagedCollectRun {α : Type} (h : Nat → Nat → Res (List α)) (inputLen size : Nat)
    (msg : String) : Res (List α) :=
  let r := eachPage inputLen size (pageCollect h) { acc := [], errCount := 0, lastErr := none }
  match r.1.2 with
  | some e => .error e
  | none =>
      if r.2.errCount = r.1.1 then
        .error (wrapLast msg r.2.lastErr)
      else
        .ok r.2.acc

/-!  ## Host discovery (filterBottlerocketInstances, aws.go) -/

/-- An ECS attribute of a container instance (ecs.Attribute). -/
structure EcsAttribute where
  Name : String
  Value : String
deriving Repr, DecidableEq

/-- The fields of ecs.ContainerInstance that the updater reads. -/
structure ContainerInstance where
  Ec2InstanceId : String
  ContainerInstanceArn : String
  Attributes : List EcsAttribute
deriving Repr, DecidableEq

/-- containsAttribute from aws.go: name match only, the value is ignored. -/
def containsAttribute (attrs : List EcsAttribute) (searchString : String) : Bool :=
  attrs.any (fun attr => attr.Name == searchString)

/-- Outcomes of the per-window DescribeContainerInstances calls, by
window boundaries. -/
structure DescribeEnv where
  describe : Nat → Nat → Res (List ContainerInstance)

def asBottlerocketInstance (ci : ContainerInstance) : Instance :=
  { instanceID := ci.Ec2InstanceId
    containerInstanceID := ci.ContainerInstanceArn
    bottlerocketVersion := "" }

/-- The body of the response loop in filterBottlerocketInstances: keep
the instances carrying the bottlerocket.variant attribute. -/
def describeWindowInstances (resp : List ContainerInstance) : List Instance :=
  resp.filterMap (fun ci =>
    if containsAttribute ci.Attributes "bottlerocket.variant" then
      some (asBottlerocketInstance ci)
    else
      none)

/-- filterBottlerocketInstances from aws.go: describe the listed
container instances in windows of ecsPageSize, count per-window failures
(fatal only if every window fails), and keep the Bottlerocket ones. -/
def filterBottlerocketInstances (env : DescribeEnv) (instances : List String) :
    Res (List Instance) :=
  pagedCollectRun (fun start stop => (env.describe start stop).map describeWindowInstances)
    instances.length ecsPageSize "failed to describe any container instances"

/-- All container instances returned by the describe calls that
succeeded, in window order. -/
def describedOf (env : DescribeEnv) (instances : List String) : List ContainerInstance :=
  (pages instances.length ecsPageSize).flatMap (fun p => collectOk (env.describe p.1 p.2))

def ciC9 : ContainerInstance :=
  { Ec2InstanceId := "i-br"
    ContainerInstanceArn := "arn-br"
    Attributes := [{ Name := "bottlerocket.variant", Value := "aws-ecs-1" }] }

def ciC9b : ContainerInstance :=
  { Ec2InstanceId := "i-al"
    ContainerInstanceArn := "arn-al"
    Attributes := [{ Name := "ecs.ami-id", Value := "ami-123" }] }

def envC9 : DescribeEnv :=
  { describe := fun _ _ => .ok [ciC9, ciC9b] }

/-!  ## Update filter (filterAvailableUpdates, aws.go)

Per window of ssmPageSize instance ids, the filter sends the check
document through sendCommand, then fetches and parses each window
member's output, retaining instances whose update_state is Available or
Ready with the parsed version stashed.  The Go error message carries the
check document's name, which is not a parameter of this model. -/

structure CheckEnv where
  /-- Per-window SSM environment for the check-document sendCommand. -/
  sendEnv : Nat → Nat → SendEnv
  /-- GetCommandInvocation outcome, by command id and instance id. -/
  invocation : String → String → Res Invocation

/-- The id slice instances[start:stop] passed to sendCommand. -/
def windowIDs (bis : List Instance) (start stop : Nat) : List String :=
  ((bis.map (fun i => i.instanceID)).drop start).take (stop - start)

/-- The per-instance body of the filter's window loop. -/
def candidateOf (env : CheckEnv) (commandID : String) (inst : Instance) : Option Instance :=
  match getCommandResult (env.invocation commandID inst.instanceID) with
  | .error _ => none
  | .ok raw =>
    match parseCommandOutput raw with
    | .error _ => none
    | .ok output =>
      if output.UpdateState == updateStateAvailable
          || output.UpdateState == updateStateReady then
        some { inst with bottlerocketVersion := output.ActivePartition.Image.Version }
      else
        none

def windowCandidates (env : CheckEnv) (bis : List Instance) (commandID : String)
    (start stop : Nat) : List Instance :=
  ((bis.drop start).take (stop - start)).filterMap (candidateOf env commandID)

/-- One window of filterAvailableUpdates: a send failure is the window's
error; on success the retained candidates of the window. -/
def checkWindow (env : CheckEnv) (bis : List Instance) (start stop : Nat) :
    Res (List Instance) :=
  match sendCommand (env.sendEnv start stop) (windowIDs bis start stop) with
  | .error e => .error e
  | .ok commandID => .ok (windowCandidates env bis commandID start stop)

/-- filterAvailableUpdates from aws.go. -/
def filterAvailableUpdates (env : CheckEnv) (bis : List Instance) : Res (List Instance) :=
  pagedCollectRun (checkWindow env bis) (bis.map (fun i => i.instanceID)).length
    ssmPageSize "all attempts to send SSM document failed"

/-- The candidates collected over all windows whose send succeeded. -/
def candidatesOf (env : CheckEnv) (bis : List Instance) : List Instance :=
  (pages (bis.map (fun i => i.instanceID)).length ssmPageSize).flatMap
    (fun p => collectOk (checkWindow env bis p.1 p.2))

def instC4 : Instance :=
  { instanceID := "i-1", containerInstanceID := "arn-1", bottlerocketVersion := "1.0.0" }

def jsonAvailC4 : Json :=
  .obj [("update_state", .str "Available"),
        ("active_partition", .obj [("image", .obj [("version", .str "1.1.0")])])]

def envC4 : CheckEnv :=
  { sendEnv := fun _ _ =>
      { sendRes := .ok "cmd-1", waitErr := fun _ => none, arrival := ["i-1"] }
    invocation := fun _ _ =>
      .ok { Status := "Success", StandardOutputContent := jsonAvailC4 } }

/-!  ## Eligibility (eligible, aws.go) -/

/-- The fields of ecs.Task the updater reads. -/
structure EcsTask where
  TaskArn : String
  StartedBy : String
deriving Repr, DecidableEq

/-- Outcomes of the task APIs for one container instance. -/
structure TasksEnv where
  listTasksRes : Res (List String)
  describeTasksRes : Res (List EcsTask)

/-- strings.HasPrefix from the Go standard library. -/
def hasPrefix (s pre : String) : Bool :=
  pre.data.isPrefixOf s.data

/-- eligible from aws.go: no tasks, or every task started by a service. -/
def eligible (env : TasksEnv) : Res Bool :=
  match env.listTasksRes with
  | .error e => .error (.wrap "failed to list tasks" e)
  | .ok taskARNs =>
    if taskARNs.isEmpty then
      .ok true
    else
      match env.describeTasksRes with
      | .error e => .error (.wrap "failed to describe tasks" e)
      | .ok tasks => .ok (tasks.all (fun t => hasPrefix t.StartedBy "ecs-svc/"))

/-!  ## Drain controller and reactivation (drainInstance, activateInstance,
waitUntilDrained, aws.go)

The cluster-visible effect of a state-change call is tracked as an event
list so that the final registration state of the host is a function of
the run: a setState event is marked succeeded when the call returned
without transport error and with no per-host failure in the response. -/

/-- ecs.Failure (the Reason field is all the updater reads). -/
structure ApiFailure where
  Reason : String
deriving Repr, DecidableEq

inductive HostState where
  | ACTIVE
  | DRAINING
deriving Repr, DecidableEq

inductive Ev where
  | setState (target : HostState) (succeeded : Bool)
deriving Repr, DecidableEq

/-- The registration state after a list of state-change attempts,
starting from ACTIVE (candidates are discovered with ACTIVE status). -/
def finalState (evs : List Ev) : HostState :=
  evs.foldl (fun st ev =>
    match ev with
    | .setState t true => t
    | .setState _ false => st) .ACTIVE

/-- activateInstance from aws.go: transition to ACTIVE; a response
failure whose (first) reason is INACTIVE is success (the instance was
deregistered, so no ACTIVE-succeeded event); other response failures and
transport errors are errors. -/
def activateInstance (activateRes : Res (List ApiFailure)) : Res Unit × List Ev :=
  match activateRes with
  | .error e => (.error (.wrap "failed to change state to ACTIVE" e), [.setState .ACTIVE false])
  | .ok failures =>
    match failures with
    | [] => (.ok (), [.setState .ACTIVE true])
    | f :: _ =>
      if f.Reason == "INACTIVE" then
        (.ok (), [.setState .ACTIVE false])
      else
        (.error (.base "API failures while activating"), [.setState .ACTIVE false])

/-- Outcomes of the calls drainInstance makes for one container
instance. -/
structure DrainEnv where
  /-- UpdateContainerInstancesState to DRAINING: transport error, or the
  response's failure list. -/
  drainingRes : Res (List ApiFailure)
  /-- UpdateContainerInstancesState to ACTIVE for the reactivation
  attempts inside drainInstance. -/
  activateRes : Res (List ApiFailure)
  /-- ListTasks inside waitUntilDrained. -/
  listTasksRes : Res (List String)
  /-- WaitUntilTasksStoppedWithContext: none on success. -/
  waitTasksStoppedRes : Option GoErr

/-- waitUntilDrained from aws.go. -/
def waitUntilDrained (env : DrainEnv) : Res Unit :=
  match env.listTasksRes with
  | .error e => .error (.wrap "failed to list tasks" e)
  | .ok taskARNs =>
    if taskARNs.isEmpty then
      .ok ()
    else
      match env.waitTasksStoppedRes with
      | some e => .error e
      | none => .ok ()

/-- drainInstance from aws.go: set DRAINING; on per-host failures in the
response, attempt reactivation (the attempt's own failure is only
logged) and return the API-failure error; then wait for the drain, again
reactivating (failure only logged) and failing on a wait error. -/
def drainInstance (env : DrainEnv) : Res Unit × List Ev :=
  match env.drainingRes with
  | .error e =>
      (.error (.wrap "failed to change instance state to DRAINING" e),
        [.setState .DRAINING false])
  | .ok failures =>
    if ¬ failures.isEmpty then
      let act := activateInstance env.activateRes
      (.error (.base "failures in API call"), .setState .DRAINING false :: act.2)
    else
      match waitUntilDrained env with
      | .error e =>
          let act := activateInstance env.activateRes
          (.error (.wrap "error while waiting to drain" e), .setState .DRAINING true :: act.2)
      | .ok _ => (.ok (), [.setState .DRAINING true])

/-!  ## The candidate loop of _main (main.go)

One iteration of the loop over update candidates.  The iteration returns
none to advance to the next candidate and some error when _main returns
that error, which main surfaces with exit code 1.  The tail of the loop
body after reactivation (the post-update check and its logging, which
cannot fail the run or change cluster state) is omitted. -/

structure StepEnv where
  /-- The two task APIs behind the eligible call. -/
  tasks : TasksEnv
  /-- The drain controller's calls. -/
  drain : DrainEnv
  /-- sendCommand environment for the update apply document. -/
  applySendEnv : SendEnv
  /-- Reactivation outcome after an update-command failure. -/
  activateAfterUpdateRes : Res (List ApiFailure)
  /-- WaitUntilInstanceStatusOk outcome after the update. -/
  waitOkRes : Option GoErr
  /-- Reactivation outcome after the post-reboot wait. -/
  activateAfterRebootRes : Res (List ApiFailure)

def updateLoopStep (env : StepEnv) (inst : Instance) : Option GoErr × List Ev :=
  match eligible env.tasks with
  | .error _ => (none, [])
  | .ok false => (none, [])
  | .ok true =>
    match drainInstance env.drain with
    | (.error _, evs) => (none, evs)
    | (.ok _, evs) =>
      match sendCommand env.applySendEnv [inst.instanceID] with
      | .error _ =>
          let act := activateInstance env.activateAfterUpdateRes
          match act.1 with
          | .error e2 => (some e2, evs ++ act.2)
          | .ok _ => (none, evs ++ act.2)
      | .ok _ =>
        match env.waitOkRes with
        | some e => (some (.wrap "failed to enter an Ok status after reboot" e), evs)
        | none =>
          let act := activateInstance env.activateAfterRebootRes
          match act.1 with
          | .error e => (some e, evs ++ act.2)
          | .ok _ => (none, evs ++ act.2)

/-!  ## Per-host updater (updateInstance, aws.go)

The observable actions of updateInstance are traced: document sends
(awaited through sendCommand's waiters, or posted directly without
waiting), the settle sleep, and the compute-status wait. -/

inductive Act where
  | sendDoc (doc : String) (awaited : Bool)
  | sleepSecs (secs : Nat)
  | waitComputeOk
deriving Repr, DecidableEq

/-- The document names held by the updater struct (from flags). -/
structure Updater where
  checkDocument : String
  applyDocument : String
  rebootDocument : String
deriving Repr, DecidableEq

structure UpdateEnv where
  /-- sendCommand environment for the check document. -/
  checkSendEnv : SendEnv
  /-- GetCommandInvocation for the check command, by command id. -/
  checkInvocation : String → Res Invocation
  /-- sendCommand environment for the apply document. -/
  applySendEnv : SendEnv
  /-- The direct (unawaited) SendCommand call for the reboot document. -/
  rebootSendRes : Res String
  /-- WaitUntilInstanceStatusOk after the reboot. -/
  waitOkRes : Option GoErr

/-- The tail of updateInstance after the state switch: send the reboot
document directly (no waiters), sleep 15 seconds, wait for the instance
to reach Ok status. -/
def rebootPhase (u : Updater) (env : UpdateEnv) (tr : List Act) : Res Unit × List Act :=
  match env.rebootSendRes with
  | .error e =>
      (.error (.wrap "failed to send reboot command" e), tr ++ [.sendDoc u.rebootDocument false])
  | .ok _ =>
    match env.waitOkRes with
    | some e =>
        (.error (.wrap "failed to reach Ok status after reboot" e),
          tr ++ [.sendDoc u.rebootDocument false, .sleepSecs 15, .waitComputeOk])
    | none =>
        (.ok (), tr ++ [.sendDoc u.rebootDocument false, .sleepSecs 15, .waitComputeOk])

/-- updateInstance from aws.go: check the current update state, switch
on it (Idle: done; Staged: skip error; Available: send apply; Ready:
proceed), then reboot without awaiting, sleep, and wait for Ok. -/
def updateInstance (u : Updater) (env : UpdateEnv) (inst : Instance) : Res Unit × List Act :=
  match sendCommand env.checkSendEnv [inst.instanceID] with
  | .error e => (.error (.wrap "failed to send check command" e), [.sendDoc u.checkDocument true])
  | .ok commandID =>
    match getCommandResult (env.checkInvocation commandID) with
    | .error e => (.error (.wrap "failed to get check command output" e),
        [.sendDoc u.checkDocument true])
    | .ok output =>
      match parseCommandOutput output with
      | .error e => (.error (.wrap "failed to parse command output" e),
          [.sendDoc u.checkDocument true])
      | .ok check =>
        if check.UpdateState == updateStateIdle then
          (.ok (), [.sendDoc u.checkDocument true])
        else if check.UpdateState == updateStateStaged then
          (.error (.base ("unexpected update state \"" ++ check.UpdateState
              ++ "\"; skipping instance")), [.sendDoc u.checkDocument true])
        else if check.UpdateState == updateStateAvailable then
          match sendCommand env.applySendEnv [inst.instanceID] with
          | .error e => (.error (.wrap "failed to send update apply command" e),
              [.sendDoc u.checkDocument true, .sendDoc u.applyDocument true])
          | .ok _ => rebootPhase u env
              [.sendDoc u.checkDocument true, .sendDoc u.applyDocument true]
        else if check.UpdateState == updateStateReady then
          rebootPhase u env [.sendDoc u.checkDocument true]
        else
          (.error (.base ("unknown update state \"" ++ check.UpdateState ++ "\"")),
            [.sendDoc u.checkDocument true])

/-!  ## Verifier (verifyUpdate, aws.go)

The second component of the successful result records which of the three
log branches ran (same version / newer available / updated). -/

inductive VerifyMsg where
  | didNotUpdate
  | newerAvailable
  | updatedOk
deriving Repr, DecidableEq

structure VerifyEnv where
  checkSendEnv : SendEnv
  checkInvocation : String → Res Invocation

/-- verifyUpdate from aws.go: re-run the check document; the update did
not take effect iff the reported active version equals the stored
pre-update version; otherwise it took effect, with a distinguished
message when another update is already Available. -/
def verifyUpdate (env : VerifyEnv) (inst : Instance) : Res (Bool × VerifyMsg) :=
  match sendCommand env.checkSendEnv [inst.instanceID] with
  | .error e => .error (.wrap "failed to send update check command" e)
  | .ok updateStatus =>
    match getCommandResult (env.checkInvocation updateStatus) with
    | .error e => .error (.wrap "failed to get check command output" e)
    | .ok updateResult =>
      match parseCommandOutput updateResult with
      | .error e => .error (.wrap "failed to parse command output, manual verification required" e)
      | .ok output =>
        if output.ActivePartition.Image.Version == inst.bottlerocketVersion then
          .ok (false, .didNotUpdate)
        else if output.UpdateState == updateStateAvailable then
          .ok (true, .newerAvailable)
        else
          .ok (true, .updatedOk)

def envC6 : TasksEnv :=
  { listTasksRes := .ok ["task-1", "task-2"]
    describeTasksRes := .ok
      [{ TaskArn := "task-1", StartedBy := "ecs-svc/12345" },
       { TaskArn := "task-2", StartedBy := "ecs-svc/67890" }] }

def instC1 : Instance :=
  { instanceID := "i-draining", containerInstanceID := "arn-draining",
    bottlerocketVersion := "1.0.0" }

/-- A run in which the host drains into a wait timeout and the
reactivation attempt fails. -/
def stepEnvC1 : StepEnv :=
  { tasks := { listTasksRes := .ok [], describeTasksRes := .ok [] }
    drain :=
      { drainingRes := .ok []
        activateRes := .error (.base "RequestLimitExceeded")
        listTasksRes := .ok ["task-arn-1"]
        waitTasksStoppedRes := some (.base "exceeded max attempts") }
    applySendEnv := { sendRes := .ok "cmd-apply", waitErr := fun _ => none, arrival := [] }
    activateAfterUpdateRes := .ok []
    waitOkRes := none
    activateAfterRebootRes := .ok [] }

def updC3 : Updater :=
  { checkDocument := "check-doc", applyDocument := "apply-doc", rebootDocument := "reboot-doc" }

def instC3 : Instance :=
  { instanceID := "i-3", containerInstanceID := "arn-3", bottlerocketVersion := "1.1.0" }

def jsonReadyC3 : Json :=
  .obj [("update_state", .str "Ready"),
        ("active_partition", .obj [("image", .obj [("version", .str "1.1.0")])])]

def envC3 : UpdateEnv :=
  { checkSendEnv := { sendRes := .ok "cmd-check", waitErr := fun _ => none, arrival := ["i-3"] }
    checkInvocation := fun _ => .ok { Status := "Success", StandardOutputContent := jsonReadyC3 }
    applySendEnv := { sendRes := .ok "cmd-apply", waitErr := fun _ => none, arrival := ["i-3"] }
    rebootSendRes := .ok "cmd-reboot"
    waitOkRes := none }

def jsonIdleC7 : Json :=
  .obj [("update_state", .str "Idle"),
        ("active_partition", .obj [("image", .obj [("version", .str "1.1.0")])])]

def envC7 : VerifyEnv :=
  { checkSendEnv := { sendRes := .ok "cmd-verify", waitErr := fun _ => none, arrival := ["i-3"] }
    checkInvocation := fun _ => .ok { Status := "Success", StandardOutputContent := jsonIdleC7 } }

def instC7 : Instance :=
  { instanceID := "i-3", containerInstanceID := "arn-3", bottlerocketVersion := "1.0.0" }

/-- A check-output JSON document with the two mandatory fields. -/
def mkCheckJson (us v : String) : Json :=
  .obj [("update_state", .str us),
        ("active_partition", .obj [("image", .obj [("version", .str v)])])]

theorem eachPageAux_eq_foldPages {σ : Type} (inputLen size : Nat)
    (fn : Nat → Nat → σ → σ × Option GoErr) :
    ∀ fuel start pageCount s,
      eachPageAux inputLen size fn fuel start pageCount s =
        foldPages fn (pagesAux inputLen size fuel start) pageCount s := by
  intro fuel
  induction fuel with
  | zero => intro start pageCount s; rfl
  | succ n ih =>
      intro start pageCount s
      rw [eachPageAux, pagesAux]
      by_cases h : start < inputLen
      · rw [if_pos h, if_pos h]
        rw [foldPages]
        obtain ⟨r, hfn⟩ : ∃ r, fn start (min (start + size) inputLen) s = r := ⟨_, rfl⟩
        rw [hfn]
        cases r with
        | mk s' e =>
            cases e with
            | some err => rfl
            | none => exact ih (start + size) (pageCount + 1) s'
      · rw [if_neg h, if_neg h]
        rfl

theorem eachPage_eq_foldPages {σ : Type} (inputLen size : Nat)
    (fn : Nat → Nat → σ → σ × Option GoErr) (s : σ) :
    eachPage inputLen size fn s = foldPages fn (pages inputLen size) 0 s :=
  eachPageAux_eq_foldPages inputLen size fn inputLen 0 0 s

theorem pagesAux_mem_bounds (inputLen size : Nat) (hsize : 0 < size) :
    ∀ fuel start, ∀ p ∈ pagesAux inputLen size fuel start,
      start ≤ p.1 ∧ p.1 < p.2 ∧ p.2 ≤ inputLen ∧ p.2 - p.1 ≤ size := by
  intro fuel
  induction fuel with
  | zero => intro start p hp; simp [pagesAux] at hp
  | succ n ih =>
      intro start p hp
      rw [pagesAux] at hp
      by_cases h : start < inputLen
      · rw [if_pos h] at hp
        simp only [List.mem_cons] at hp
        rcases hp with rfl | hp
        · refine ⟨Nat.le_refl _, ?_, ?_, ?_⟩ <;> simp <;> omega
        · have := ih (start + size) p hp
          omega
      · rw [if_neg h] at hp
        simp at hp

theorem pagesAux_chain (inputLen size : Nat) :
    ∀ fuel start,
      (pagesAux inputLen size fuel start).Chain' (fun p q => q.1 = p.2) ∧
      (∀ q rest, pagesAux inputLen size fuel start = q :: rest →
        q = (start, min (start + size) inputLen)) := by
  intro fuel
  induction fuel with
  | zero =>
      intro start
      exact ⟨List.chain'_nil, by intro q rest hq; exact absurd hq (by simp [pagesAux])⟩
  | succ n ih =>
      intro start
      rw [pagesAux]
      by_cases h : start < inputLen
      · rw [if_pos h]
        obtain ⟨ihchain, ihhead⟩ := ih (start + size)
        constructor
        · obtain ⟨tl, htail⟩ : ∃ tl, pagesAux inputLen size n (start + size) = tl := ⟨_, rfl⟩
          rw [htail] at ihchain ihhead ⊢
          cases tl with
          | nil => simp
          | cons q rest =>
              have hq := ihhead q rest rfl
              refine List.chain'_cons.mpr ⟨?_, ihchain⟩
              rw [hq]
              by_cases hstop : start + size < inputLen
              · simp
                omega
              · cases n with
                | zero => simp [pagesAux] at htail
                | succ m =>
                    rw [pagesAux, if_neg hstop] at htail
                    exact absurd htail (by simp)
        · intro q rest hq
          injection hq with h1 _
          exact h1.symm
      · rw [if_neg h]
        exact ⟨List.chain'_nil, by intro q rest hq; exact absurd hq (by simp)⟩

theorem pagesAux_cover (inputLen size : Nat) (hsize : 0 < size) :
    ∀ fuel start, inputLen - start ≤ fuel →
      ∀ k, start ≤ k → k < inputLen →
        ∃ p ∈ pagesAux inputLen size fuel start, p.1 ≤ k ∧ k < p.2 := by
  intro fuel
  induction fuel with
  | zero => intro start hle k hk1 hk2; omega
  | succ n ih =>
      intro start hle k hk1 hk2
      rw [pagesAux]
      have h : start < inputLen := by omega
      rw [if_pos h]
      by_cases hin : k < min (start + size) inputLen
      · exact ⟨(start, min (start + size) inputLen), List.mem_cons_self _ _, hk1, hin⟩
      · have hk3 : start + size ≤ k := by omega
        obtain ⟨p, hp, hp1, hp2⟩ := ih (start + size) (by omega) k hk3 hk2
        exact ⟨p, List.mem_cons_of_mem _ hp, hp1, hp2⟩

theorem pages_mem_bounds (inputLen size : Nat) (hsize : 0 < size) :
    ∀ p ∈ pages inputLen size, p.1 < p.2 ∧ p.2 ≤ inputLen ∧ p.2 - p.1 ≤ size := by
  intro p hp
  have := pagesAux_mem_bounds inputLen size hsize inputLen 0 p hp
  exact ⟨this.2.1, this.2.2.1, this.2.2.2⟩

theorem pages_cover (inputLen size : Nat) (hsize : 0 < size) :
    ∀ k, k < inputLen → ∃ p ∈ pages inputLen size, p.1 ≤ k ∧ k < p.2 :=
  fun k hk => pagesAux_cover inputLen size hsize inputLen 0 (by omega) k (by omega) hk

theorem foldPages_count_ok {σ : Type} (fn : Nat → Nat → σ → σ × Option GoErr) :
    ∀ ps c s, (foldPages fn ps c s).1.2 = none →
      (foldPages fn ps c s).1.1 = c + ps.length := by
  intro ps
  induction ps with
  | nil => intro c s _; simp [foldPages]
  | cons p ps ih =>
      intro c s hnone
      rw [foldPages] at hnone ⊢
      obtain ⟨r, hfn⟩ : ∃ r, fn p.1 p.2 s = r := ⟨_, rfl⟩
      rw [hfn] at hnone ⊢
      cases r with
      | mk s' e =>
          cases e with
          | some err => simp at hnone
          | none =>
              have hih := ih (c + 1) s' hnone
              simp only [List.length_cons]
              rw [hih]
              omega

theorem foldPages_count_err {σ : Type} (fn : Nat → Nat → σ → σ × Option GoErr) :
    ∀ ps c s e, (foldPages fn ps c s).1.2 = some e →
      (foldPages fn ps c s).1.1 = 0 := by
  intro ps
  induction ps with
  | nil => intro c s e h; simp [foldPages] at h
  | cons p ps ih =>
      intro c s e hsome
      rw [foldPages] at hsome ⊢
      obtain ⟨r, hfn⟩ : ∃ r, fn p.1 p.2 s = r := ⟨_, rfl⟩
      rw [hfn] at hsome ⊢
      cases r with
      | mk s' e' =>
          cases e' with
          | some err => rfl
          | none => exact ih (c + 1) s' e hsome

/-- C5.  The pagination helper walks exactly the windows in pages n w:
consecutive (each window starts where the previous one stopped, the first
at 0), non-overlapping, covering the whole input range, every window
within bounds and of length at most w; the run processes the windows in
order, stops at the first callback error, and the returned pair carries
the window count on success and (0, the first error) on failure. -/
theorem eachPage_window_contract {σ : Type} (n w : Nat) (hw : 0 < w)
    (fn : Nat → Nat → σ → σ × Option GoErr) (s : σ) :
    (∀ p ∈ pages n w, p.1 < p.2 ∧ p.2 ≤ n ∧ p.2 - p.1 ≤ w)
  ∧ (pages n w).Chain' (fun p q => q.1 = p.2)
  ∧ (∀ q rest, pages n w = q :: rest → q.1 = 0)
  ∧ (∀ k, k < n → ∃ p ∈ pages n w, p.1 ≤ k ∧ k < p.2)
  ∧ eachPage n w fn s = foldPages fn (pages n w) 0 s
  ∧ (∀ c s', eachPage n w fn s = ((c, none), s') → c = (pages n w).length)
  ∧ (∀ c e s', eachPage n w fn s = ((c, some e), s') → c = 0) := by
  refine ⟨pages_mem_bounds n w hw, (pagesAux_chain n w n 0).1, ?_, pages_cover n w hw,
    eachPage_eq_foldPages n w fn s, ?_, ?_⟩
  · intro q rest hq
    have := (pagesAux_chain n w n 0).2 q rest hq
    rw [this]
  · intro c s' hrun
    rw [eachPage_eq_foldPages] at hrun
    have h2 : (foldPages fn (pages n w) 0 s).1.2 = none := by rw [hrun]
    have := foldPages_count_ok fn (pages n w) 0 s h2
    rw [hrun] at this
    simpa using this
  · intro c e s' hrun
    rw [eachPage_eq_foldPages] at hrun
    have h2 : (foldPages fn (pages n w) 0 s).1.2 = some e := by rw [hrun]
    have := foldPages_count_err fn (pages n w) 0 s e h2
    rw [hrun] at this
    simpa using this

/-- Witness for C5 at n = 5, w = 2: three windows (0,2), (2,4), (4,5). -/
theorem eachPage_window_contract_witness :
    0 < 2 ∧ eachPage 5 2 fnC5 () = foldPages fnC5 (pages 5 2) 0 () ∧
      pages 5 2 = [(0, 2), (2, 4), (4, 5)] :=
  ⟨by decide, (eachPage_window_contract 5 2 (by decide) fnC5 ()).2.2.2.2.1, by decide⟩

theorem drainErrChan_none : ∀ (errs : List GoErr) (n c : Nat),
    errs.length + c < n → drainErrChan errs n c = none := by
  intro errs
  induction errs with
  | nil => intro n c _; rfl
  | cons e rest ih =>
      intro n c hlt
      rw [drainErrChan]
      have : ¬ (c + 1 = n) := by simp at hlt; omega
      rw [if_neg this]
      exact ih n (c + 1) (by simp at hlt ⊢; omega)

theorem drainErrChan_last : ∀ (errs : List GoErr) (n c : Nat),
    errs ≠ [] → n = errs.length + c →
    ∃ e, errs.getLast? = some e ∧ drainErrChan errs n c = some e := by
  intro errs
  induction errs with
  | nil => intro n c hne _; exact absurd rfl hne
  | cons e rest ih =>
      intro n c _ hn
      cases rest with
      | nil =>
          refine ⟨e, rfl, ?_⟩
          rw [drainErrChan, if_pos (by simp at hn; omega)]
      | cons e2 rest2 =>
          obtain ⟨x, hx1, hx2⟩ := ih n (c + 1) (by simp) (by simp at hn ⊢; omega)
          refine ⟨x, ?_, ?_⟩
          · rw [List.getLast?_cons_cons]
            exact hx1
          · rw [drainErrChan, if_neg (by simp at hn; omega)]
            exact hx2

theorem filterMap_length_eq_of_all_some {α β : Type} (f : α → Option β) :
    ∀ l : List α, (∀ a ∈ l, f a ≠ none) → (l.filterMap f).length = l.length := by
  intro l
  induction l with
  | nil => intro _; rfl
  | cons a rest ih =>
      intro hall
      rw [List.filterMap_cons]
      obtain ⟨b, hb⟩ : ∃ b, f a = some b := by
        cases hfa : f a with
        | none => exact absurd hfa (hall a (List.mem_cons_self a rest))
        | some b => exact ⟨b, rfl⟩
      rw [hb]
      simp only [List.length_cons]
      rw [ih (fun x hx => hall x (List.mem_cons_of_mem a hx))]

theorem filterMap_length_lt_of_some_none {α β : Type} (f : α → Option β) :
    ∀ l : List α, (∃ a ∈ l, f a = none) → (l.filterMap f).length < l.length := by
  intro l
  induction l with
  | nil => intro h; simp at h
  | cons a rest ih =>
      intro h
      rw [List.filterMap_cons]
      cases hfa : f a with
      | none =>
          simp only [List.length_cons]
          have := List.length_filterMap_le f rest
          omega
      | some b =>
          obtain ⟨x, hx, hfx⟩ := h
          rcases List.mem_cons.mp hx with rfl | hx2
          · rw [hfa] at hfx; exact absurd hfx (by simp)
          · simp only [List.length_cons]
            have := ih ⟨x, hx2, hfx⟩
            omega

/-- C2.  With a successful SendCommand call, sendCommand returns the
command id exactly when at least one per-host waiter succeeded; when
every waiter failed it fails with "too many failures while awaiting
document execution" wrapping the last waiter error to arrive. -/
theorem sendCommand_one_success_rule (env : SendEnv) (instanceIDs : List String)
    (cid : String) (hsend : env.sendRes = .ok cid)
    (hperm : env.arrival.Perm instanceIDs) (hne : instanceIDs ≠ []) :
    (sendCommand env instanceIDs = .ok cid ↔ ∃ i ∈ instanceIDs, env.waitErr i = none)
  ∧ ((∀ i ∈ instanceIDs, env.waitErr i ≠ none) →
      ∃ e, (env.arrival.filterMap env.waitErr).getLast? = some e ∧
        sendCommand env instanceIDs =
          .error (.wrap "too many failures while awaiting document execution" e)) := by
  have hlen : env.arrival.length = instanceIDs.length := hperm.length_eq
  have hfail : (∀ i ∈ instanceIDs, env.waitErr i ≠ none) →
      ∃ e, (env.arrival.filterMap env.waitErr).getLast? = some e ∧
        sendCommand env instanceIDs =
          .error (.wrap "too many failures while awaiting document execution" e) := by
    intro hall
    have hall' : ∀ a ∈ env.arrival, env.waitErr a ≠ none :=
      fun a ha => hall a (hperm.mem_iff.mp ha)
    have hlen2 : (env.arrival.filterMap env.waitErr).length = instanceIDs.length := by
      rw [filterMap_length_eq_of_all_some env.waitErr env.arrival hall', hlen]
    have hne2 : env.arrival.filterMap env.waitErr ≠ [] := by
      intro hnil
      rw [hnil] at hlen2
      simp at hlen2
      exact hne (List.length_eq_zero.mp hlen2.symm)
    obtain ⟨e, he1, he2⟩ := drainErrChan_last (env.arrival.filterMap env.waitErr)
      instanceIDs.length 0 hne2 (by omega)
    refine ⟨e, he1, ?_⟩
    rw [sendCommand, hsend, he2]
  refine ⟨⟨?_, ?_⟩, hfail⟩
  · intro hok
    by_contra hno
    push_neg at hno
    obtain ⟨e, _, he2⟩ := hfail hno
    rw [hok] at he2
    exact absurd he2 (by simp)
  · intro ⟨i, hi, hwi⟩
    have hlt : (env.arrival.filterMap env.waitErr).length < instanceIDs.length := by
      have := filterMap_length_lt_of_some_none env.waitErr env.arrival
        ⟨i, hperm.mem_iff.mpr hi, hwi⟩
      omega
    rw [sendCommand, hsend, drainErrChan_none _ instanceIDs.length 0 (by omega)]

/-- Witness for C2: one of the two waiters fails, sendCommand still
returns the command id. -/
theorem sendCommand_one_success_rule_witness :
    sendCommand envC2 ["inst-1", "inst-2"] = .ok "cmd-1" :=
  (sendCommand_one_success_rule envC2 ["inst-1", "inst-2"] "cmd-1" rfl
    (List.Perm.refl _) (by decide)).1.mpr ⟨"inst-2", by decide, by decide⟩

theorem foldPages_pageCollect {α : Type} (h : Nat → Nat → Res (List α)) :
    ∀ (ps : List (Nat × Nat)) (c : Nat) (st : PageAcc α),
      foldPages (pageCollect h) ps c st =
        ((c + ps.length, none),
         { acc := st.acc ++ ps.flatMap (fun p => collectOk (h p.1 p.2)),
           errCount := st.errCount + ps.countP (fun p => isErrRes (h p.1 p.2)),
           lastErr := lastErrAcc h ps st.lastErr }) := by
  intro ps
  induction ps with
  | nil =>
      intro c st
      simp [foldPages, lastErrAcc, collectOk]
  | cons p ps ih =>
      intro c st
      cases hw : h p.1 p.2 with
      | error e =>
          simp only [foldPages, pageCollect, hw]
          rw [ih]
          simp only [List.flatMap_cons, List.countP_cons, List.length_cons, Prod.mk.injEq,
            PageAcc.mk.injEq, lastErrAcc, List.foldl_cons, collectOk, isErrRes, hw]
          refine ⟨⟨by omega, trivial⟩, by simp, by simp; all_goals omega, trivial⟩
      | ok xs =>
          simp only [foldPages, pageCollect, hw]
          rw [ih]
          simp only [List.flatMap_cons, List.countP_cons, List.length_cons, Prod.mk.injEq,
            PageAcc.mk.injEq, lastErrAcc, List.foldl_cons, collectOk, isErrRes, hw]
          refine ⟨⟨by omega, trivial⟩, by simp [List.append_assoc], by simp, trivial⟩

theorem pagedCollectRun_eq {α : Type} (h : Nat → Nat → Res (List α))
    (inputLen size : Nat) (msg : String) :
    pagedCollectRun h inputLen size msg =
      if (pages inputLen size).countP (fun p => isErrRes (h p.1 p.2)) =
          (pages inputLen size).length then
        .error (wrapLast msg (lastErrAcc h (pages inputLen size) none))
      else
        .ok ((pages inputLen size).flatMap (fun p => collectOk (h p.1 p.2))) := by
  rw [pagedCollectRun]
  rw [eachPage_eq_foldPages, foldPages_pageCollect]
  simp only [Nat.zero_add, List.nil_append]

theorem collectOk_map {α β : Type} (r : Res (List α)) (f : List α → List β) :
    collectOk (r.map f) = match r with | .error _ => [] | .ok xs => f xs := by
  cases r <;> rfl

theorem mem_describeWindowInstances (resp : List ContainerInstance) (x : Instance) :
    x ∈ describeWindowInstances resp ↔
      ∃ ci ∈ resp, containsAttribute ci.Attributes "bottlerocket.variant" = true ∧
        x = asBottlerocketInstance ci := by
  rw [describeWindowInstances, List.mem_filterMap]
  constructor
  · rintro ⟨ci, hci, hsome⟩
    by_cases hc : containsAttribute ci.Attributes "bottlerocket.variant" = true
    · rw [if_pos hc] at hsome
      exact ⟨ci, hci, hc, (Option.some.injEq _ _ ▸ hsome).symm⟩
    · rw [if_neg hc] at hsome
      exact absurd hsome (by simp)
  · rintro ⟨ci, hci, hc, rfl⟩
    exact ⟨ci, hci, by rw [if_pos hc]⟩

/-- C9.  When filterBottlerocketInstances succeeds, a record is in its
output exactly when some successfully described container instance
carries an attribute named bottlerocket.variant and maps to that record;
in particular a described host with no such attribute contributes
nothing, and the attribute value is irrelevant to the test. -/
theorem filterBottlerocket_attribute_rule (env : DescribeEnv) (instances : List String)
    (out : List Instance) (hok : filterBottlerocketInstances env instances = .ok out) :
    (∀ x, x ∈ out ↔ ∃ ci ∈ describedOf env instances,
        containsAttribute ci.Attributes "bottlerocket.variant" = true ∧
        x = asBottlerocketInstance ci)
  ∧ (∀ x, (¬ ∃ ci ∈ describedOf env instances,
        containsAttribute ci.Attributes "bottlerocket.variant" = true ∧
        x = asBottlerocketInstance ci) → x ∉ out)
  ∧ (∀ (attrs : List EcsAttribute) (s : String) (v : EcsAttribute → String),
      containsAttribute (attrs.map (fun a => { a with Value := v a })) s =
        containsAttribute attrs s) := by
  have hmem : ∀ x, x ∈ out ↔ ∃ ci ∈ describedOf env instances,
      containsAttribute ci.Attributes "bottlerocket.variant" = true ∧
      x = asBottlerocketInstance ci := by
    rw [filterBottlerocketInstances, pagedCollectRun_eq] at hok
    by_cases hall : (pages instances.length ecsPageSize).countP
        (fun p => isErrRes ((env.describe p.1 p.2).map describeWindowInstances)) =
        (pages instances.length ecsPageSize).length
    · rw [if_pos hall] at hok
      exact absurd hok (by simp)
    · rw [if_neg hall] at hok
      have hout : out = (pages instances.length ecsPageSize).flatMap
          (fun p => collectOk ((env.describe p.1 p.2).map describeWindowInstances)) := by
        injection hok with h1
        exact h1.symm
      intro x
      rw [hout, List.mem_flatMap]
      constructor
      · rintro ⟨p, hp, hx⟩
        rw [collectOk_map] at hx
        cases hd : env.describe p.1 p.2 with
        | error e => rw [hd] at hx; simp at hx
        | ok resp =>
            rw [hd] at hx
            simp only [] at hx
            obtain ⟨ci, hci, hc, hxci⟩ := (mem_describeWindowInstances resp x).mp hx
            refine ⟨ci, ?_, hc, hxci⟩
            rw [describedOf, List.mem_flatMap]
            exact ⟨p, hp, by rw [hd]; exact hci⟩
      · rintro ⟨ci, hci, hc, rfl⟩
        rw [describedOf, List.mem_flatMap] at hci
        obtain ⟨p, hp, hci2⟩ := hci
        refine ⟨p, hp, ?_⟩
        rw [collectOk_map]
        cases hd : env.describe p.1 p.2 with
        | error e => rw [hd] at hci2; simp [collectOk] at hci2
        | ok resp =>
            rw [hd] at hci2
            simp only [collectOk] at hci2
            exact (mem_describeWindowInstances resp _).mpr ⟨ci, hci2, hc, rfl⟩
  refine ⟨hmem, fun x hnone hx => hnone ((hmem x).mp hx), ?_⟩
  intro attrs s v
  rw [containsAttribute, containsAttribute, List.any_map]
  rfl

/-- Witness for C9: of two described hosts, exactly the one with the
bottlerocket.variant attribute is retained. -/
theorem filterBottlerocket_attribute_rule_witness :
    asBottlerocketInstance ciC9 ∈ [asBottlerocketInstance ciC9] :=
  ((filterBottlerocket_attribute_rule envC9 ["arn-br", "arn-al"]
      [asBottlerocketInstance ciC9] (by decide)).1 _).mpr
    ⟨ciC9, by decide, by decide, by decide⟩

theorem isErrRes_checkWindow (env : CheckEnv) (bis : List Instance) (s t : Nat) :
    isErrRes (checkWindow env bis s t) =
      isErrRes (sendCommand (env.sendEnv s t) (windowIDs bis s t)) := by
  rw [checkWindow]
  cases h : sendCommand (env.sendEnv s t) (windowIDs bis s t) <;> rfl

theorem candidateOf_eq_some (env : CheckEnv) (cid : String) (inst x : Instance) :
    candidateOf env cid inst = some x ↔
      ∃ output, (∃ raw, getCommandResult (env.invocation cid inst.instanceID) = .ok raw ∧
          parseCommandOutput raw = .ok output) ∧
        (output.UpdateState = updateStateAvailable ∨ output.UpdateState = updateStateReady) ∧
        x = { inst with bottlerocketVersion := output.ActivePartition.Image.Version } := by
  rw [candidateOf]
  cases hg : getCommandResult (env.invocation cid inst.instanceID) with
  | error e =>
      simp only []
      constructor
      · intro h; exact absurd h (by simp)
      · rintro ⟨output, ⟨raw, hraw, _⟩, _, _⟩
        exact absurd hraw (by simp)
  | ok raw =>
      simp only []
      cases hp : parseCommandOutput raw with
      | error e =>
          constructor
          · intro h; exact absurd h (by simp)
          · rintro ⟨output, ⟨raw2, hraw2, hp2⟩, _, _⟩
            injection hraw2 with hr
            rw [hr] at hp
            rw [hp] at hp2
            exact absurd hp2 (by simp)
      | ok output =>
          simp only []
          by_cases hs : output.UpdateState = updateStateAvailable ∨
              output.UpdateState = updateStateReady
          · rw [if_pos (by simp only [Bool.or_eq_true, beq_iff_eq]; exact hs)]
            constructor
            · intro h
              injection h with hx
              exact ⟨output, ⟨raw, rfl, hp⟩, hs, hx.symm⟩
            · rintro ⟨output2, ⟨raw2, hraw2, hp2⟩, _, rfl⟩
              injection hraw2 with hr
              rw [hr] at hp
              rw [hp] at hp2
              injection hp2 with ho
              rw [ho]
          · rw [if_neg (by simp only [Bool.or_eq_true, beq_iff_eq]; tauto)]
            constructor
            · intro h; exact absurd h (by simp)
            · rintro ⟨output2, ⟨raw2, hraw2, hp2⟩, hs2, _⟩
              injection hraw2 with hr
              rw [hr] at hp
              rw [hp] at hp2
              injection hp2 with ho
              rw [← ho] at hs2
              exact absurd hs2 hs

/-- C4.  filterAvailableUpdates either succeeds with exactly the
candidates collected from the windows whose send succeeded, or fails;
it fails exactly when every window's check-document send failed; and a
record is a candidate exactly when its window's send succeeded, its
output was fetched with Success status and parsed, and the parsed
update_state is Available or Ready, the parsed version being stashed on
the record.  Fetch or parse failures only drop the affected instance. -/
theorem filterAvailable_rule (env : CheckEnv) (bis : List Instance) :
    (filterAvailableUpdates env bis = .ok (candidatesOf env bis) ∨
      ∃ e, filterAvailableUpdates env bis = .error e)
  ∧ ((∃ e, filterAvailableUpdates env bis = .error e) ↔
      ∀ p ∈ pages (bis.map (fun i => i.instanceID)).length ssmPageSize,
        isErrRes (sendCommand (env.sendEnv p.1 p.2) (windowIDs bis p.1 p.2)) = true)
  ∧ (∀ x, x ∈ candidatesOf env bis ↔
      ∃ p ∈ pages (bis.map (fun i => i.instanceID)).length ssmPageSize,
      ∃ cid, sendCommand (env.sendEnv p.1 p.2) (windowIDs bis p.1 p.2) = .ok cid ∧
      ∃ inst ∈ (bis.drop p.1).take (p.2 - p.1),
      ∃ output, (∃ raw, getCommandResult (env.invocation cid inst.instanceID) = .ok raw ∧
          parseCommandOutput raw = .ok output) ∧
        (output.UpdateState = updateStateAvailable ∨ output.UpdateState = updateStateReady) ∧
        x = { inst with bottlerocketVersion := output.ActivePartition.Image.Version }) := by
  have heq := pagedCollectRun_eq (checkWindow env bis)
    (bis.map (fun i => i.instanceID)).length ssmPageSize
    "all attempts to send SSM document failed"
  rw [filterAvailableUpdates] at *
  refine ⟨?_, ?_, ?_⟩
  · by_cases hall : (pages (bis.map (fun i => i.instanceID)).length ssmPageSize).countP
        (fun p => isErrRes (checkWindow env bis p.1 p.2)) =
        (pages (bis.map (fun i => i.instanceID)).length ssmPageSize).length
    · rw [heq, if_pos hall]
      exact Or.inr ⟨_, rfl⟩
    · rw [heq, if_neg hall]
      exact Or.inl rfl
  · constructor
    · rintro ⟨e, he⟩
      rw [heq] at he
      by_cases hall : (pages (bis.map (fun i => i.instanceID)).length ssmPageSize).countP
          (fun p => isErrRes (checkWindow env bis p.1 p.2)) =
          (pages (bis.map (fun i => i.instanceID)).length ssmPageSize).length
      · intro p hp
        rw [← isErrRes_checkWindow]
        exact List.countP_eq_length.mp hall p hp
      · rw [if_neg hall] at he
        exact absurd he (by simp)
    · intro hall
      rw [heq, if_pos ?_]
      · exact ⟨_, rfl⟩
      · refine List.countP_eq_length.mpr ?_
        intro p hp
        rw [isErrRes_checkWindow]
        exact hall p hp
  · intro x
    rw [candidatesOf, List.mem_flatMap]
    constructor
    · rintro ⟨p, hp, hx⟩
      refine ⟨p, hp, ?_⟩
      rw [checkWindow] at hx
      cases hsend : sendCommand (env.sendEnv p.1 p.2) (windowIDs bis p.1 p.2) with
      | error e => rw [hsend] at hx; simp [collectOk] at hx
      | ok cid =>
          rw [hsend] at hx
          simp only [collectOk] at hx
          rw [windowCandidates, List.mem_filterMap] at hx
          obtain ⟨inst, hinst, hcand⟩ := hx
          exact ⟨cid, rfl, inst, hinst, (candidateOf_eq_some env cid inst x).mp hcand⟩
    · rintro ⟨p, hp, cid, hsend, inst, hinst, hout⟩
      refine ⟨p, hp, ?_⟩
      rw [checkWindow, hsend]
      simp only [collectOk]
      rw [windowCandidates, List.mem_filterMap]
      exact ⟨inst, hinst, (candidateOf_eq_some env cid inst x).mpr hout⟩

/-- Witness for C4: a single host whose check output parses to state
Available is retained with the parsed version stashed. -/
theorem filterAvailable_rule_witness :
    { instanceID := "i-1", containerInstanceID := "arn-1",
      bottlerocketVersion := "1.1.0" : Instance } ∈ candidatesOf envC4 [instC4] :=
  ((filterAvailable_rule envC4 [instC4]).2.2 _).mpr
    ⟨(0, 1), by decide, "cmd-1", by decide, instC4, by decide,
      { UpdateState := "Available", ActivePartition := { Image := { Version := "1.1.0" } } },
      ⟨jsonAvailC4, rfl, by decide⟩, Or.inl (by decide), by decide⟩

/-- C6.  eligible returns true exactly when the host's task list is
empty or every described task's started_by begins with "ecs-svc/"; a
list or describe API error is returned to the caller, and in the
candidate loop such an error only skips the host (the iteration advances
with no state change and no fatal error). -/
theorem eligible_service_rule (env : TasksEnv) :
    (∀ e, env.listTasksRes = .error e →
      eligible env = .error (.wrap "failed to list tasks" e))
  ∧ (env.listTasksRes = .ok [] → eligible env = .ok true)
  ∧ (∀ arns e, env.listTasksRes = .ok arns → arns ≠ [] →
      env.describeTasksRes = .error e →
      eligible env = .error (.wrap "failed to describe tasks" e))
  ∧ (∀ arns tasks, env.listTasksRes = .ok arns → arns ≠ [] →
      env.describeTasksRes = .ok tasks →
      (eligible env = .ok true ↔
        ∀ t ∈ tasks, hasPrefix t.StartedBy "ecs-svc/" = true))
  ∧ (∀ (stepEnv : StepEnv) (inst : Instance) e, eligible stepEnv.tasks = .error e →
      updateLoopStep stepEnv inst = (none, [])) := by
  refine ⟨?_, ?_, ?_, ?_, ?_⟩
  · intro e he
    rw [eligible, he]
  · intro he
    rw [eligible, he]
    rfl
  · intro arns e hl hne hd
    rw [eligible, hl]
    simp only []
    rw [if_neg (by simpa using hne)]
    rw [hd]
  · intro arns tasks hl hne hd
    rw [eligible, hl]
    simp only []
    rw [if_neg (by simpa using hne)]
    rw [hd]
    simp only []
    constructor
    · intro h
      injection h with hall
      exact List.all_eq_true.mp hall
    · intro h
      rw [List.all_eq_true.mpr h]
  · intro stepEnv inst e he
    rw [updateLoopStep, he]

/-- Witness for C6: two service-started tasks make the host eligible. -/
theorem eligible_service_rule_witness : eligible envC6 = .ok true :=
  ((eligible_service_rule envC6).2.2.2.1 ["task-1", "task-2"]
    [{ TaskArn := "task-1", StartedBy := "ecs-svc/12345" },
     { TaskArn := "task-2", StartedBy := "ecs-svc/67890" }]
    rfl (by decide) rfl).mpr (by decide)

/-- C8.  activateInstance succeeds when the response reports no per-host
failure, treats a response failure with reason INACTIVE as success, and
fails on any other response failure and on any transport error. -/
theorem activateInstance_inactive_rule (e : GoErr) (f : ApiFailure) :
    ((activateInstance (.ok [])).1 = .ok ())
  ∧ (f.Reason = "INACTIVE" → (activateInstance (.ok [f])).1 = .ok ())
  ∧ (f.Reason ≠ "INACTIVE" →
      (activateInstance (.ok [f])).1 = .error (.base "API failures while activating"))
  ∧ ((activateInstance (.error e)).1 = .error (.wrap "failed to change state to ACTIVE" e)) := by
  refine ⟨rfl, ?_, ?_, rfl⟩
  · intro h
    have hb : (f.Reason == "INACTIVE") = true := by simpa [beq_iff_eq] using h
    simp [activateInstance, hb]
  · intro h
    have hb : (f.Reason == "INACTIVE") = false := beq_eq_false_iff_ne.mpr h
    simp [activateInstance, hb]

/-- Witness for C8: a lone INACTIVE response failure is success. -/
theorem activateInstance_inactive_rule_witness :
    (activateInstance (.ok [{ Reason := "INACTIVE" }])).1 = .ok () :=
  (activateInstance_inactive_rule (.base "unused") { Reason := "INACTIVE" }).2.1 rfl

theorem activateInstance_evs (r : Res (List ApiFailure)) :
    ∃ b, (activateInstance r).2 = [.setState .ACTIVE b] ∧
      (b = true → (activateInstance r).1 = .ok ()) := by
  cases r with
  | error e => exact ⟨false, rfl, fun h => absurd h (by decide)⟩
  | ok failures =>
      cases failures with
      | nil => exact ⟨true, rfl, fun _ => rfl⟩
      | cons f rest =>
          by_cases hb : (f.Reason == "INACTIVE") = true
          · refine ⟨false, ?_, fun h => absurd h (by decide)⟩
            simp [activateInstance, hb]
          · refine ⟨false, ?_, fun h => absurd h (by decide)⟩
            simp [activateInstance, hb]

theorem drainInstance_cases (env : DrainEnv) :
    (∃ e, drainInstance env = (.error e, [.setState .DRAINING false]))
  ∨ (∃ e b, drainInstance env = (.error e, [.setState .DRAINING false, .setState .ACTIVE b]))
  ∨ (∃ e b, drainInstance env = (.error e, [.setState .DRAINING true, .setState .ACTIVE b]))
  ∨ drainInstance env = (.ok (), [.setState .DRAINING true]) := by
  obtain ⟨b, hb, _⟩ := activateInstance_evs env.activateRes
  cases hd : env.drainingRes with
  | error e =>
      refine Or.inl ⟨.wrap "failed to change instance state to DRAINING" e, ?_⟩
      rw [drainInstance, hd]
  | ok failures =>
      by_cases hf : failures.isEmpty = true
      · cases hw : waitUntilDrained env with
        | error e =>
            refine Or.inr (Or.inr (Or.inl ⟨.wrap "error while waiting to drain" e, b, ?_⟩))
            rw [drainInstance, hd]
            simp only []
            rw [if_neg (by simp [hf]), hw]
            simp [hb]
        | ok u =>
            refine Or.inr (Or.inr (Or.inr ?_))
            rw [drainInstance, hd]
            simp only []
            rw [if_neg (by simp [hf]), hw]
      · refine Or.inr (Or.inl ⟨.base "failures in API call", b, ?_⟩)
        rw [drainInstance, hd]
        simp only []
        rw [if_pos (by simpa using hf)]
        simp [hb]

/-- C1 (amended).  In each candidate iteration, whenever the host ends
the iteration still DRAINING, either the iteration aborted the run (the
error that main surfaces with exit code 1) or a reactivation attempt was
made and failed; a reactivation failure after an update-command failure
is run-fatal; but a drainInstance failure (DRAINING-response API failure
or drain-wait failure) never aborts the run, even when its internal
reactivation attempt fails. -/
theorem updateLoopStep_reactivation_rule (env : StepEnv) (inst : Instance) :
    (finalState (updateLoopStep env inst).2 = .DRAINING →
      ((updateLoopStep env inst).1 ≠ none ∨
        .setState .ACTIVE false ∈ (updateLoopStep env inst).2))
  ∧ (∀ e e2, eligible env.tasks = .ok true →
      (drainInstance env.drain).1 = .ok () →
      sendCommand env.applySendEnv [inst.instanceID] = .error e →
      (activateInstance env.activateAfterUpdateRes).1 = .error e2 →
      (updateLoopStep env inst).1 = some e2)
  ∧ ((drainInstance env.drain).1 ≠ .ok () → (updateLoopStep env inst).1 = none) := by
  obtain ⟨el, hel⟩ : ∃ el, eligible env.tasks = el := ⟨_, rfl⟩
  rcases drainInstance_cases env.drain with ⟨e1, hc⟩ | ⟨e1, b1, hc⟩ | ⟨e1, b1, hc⟩ | hc
  · -- DRAINING transport error: iteration skips, host never left ACTIVE.
    refine ⟨?_, ?_, ?_⟩
    · intro hfin
      cases el with
      | error e => rw [updateLoopStep, hel] at hfin; simp [finalState] at hfin
      | ok b =>
          cases b with
          | false => rw [updateLoopStep, hel] at hfin; simp [finalState] at hfin
          | true =>
              rw [updateLoopStep, hel, hc] at hfin
              simp [finalState] at hfin
    · intro e e2 heli hdr _ _
      rw [hc] at hdr
      exact absurd hdr (by simp)
    · intro _
      cases el with
      | error e => rw [updateLoopStep, hel]
      | ok b =>
          cases b with
          | false => rw [updateLoopStep, hel]
          | true => rw [updateLoopStep, hel, hc]
  · -- per-host failures in the DRAINING response: reactivation attempted
    -- inside drainInstance, iteration skips.
    refine ⟨?_, ?_, ?_⟩
    · intro hfin
      cases el with
      | error e => rw [updateLoopStep, hel] at hfin; simp [finalState] at hfin
      | ok b =>
          cases b with
          | false => rw [updateLoopStep, hel] at hfin; simp [finalState] at hfin
          | true =>
              rw [updateLoopStep, hel, hc] at hfin
              cases b1 <;> simp [finalState] at hfin
    · intro e e2 heli hdr _ _
      rw [hc] at hdr
      exact absurd hdr (by simp)
    · intro _
      cases el with
      | error e => rw [updateLoopStep, hel]
      | ok b =>
          cases b with
          | false => rw [updateLoopStep, hel]
          | true => rw [updateLoopStep, hel, hc]
  · -- drain-wait failure: reactivation attempted inside drainInstance,
    -- iteration skips; the host stays DRAINING exactly when that attempt
    -- did not take effect.
    refine ⟨?_, ?_, ?_⟩
    · intro hfin
      cases el with
      | error e => rw [updateLoopStep, hel] at hfin; simp [finalState] at hfin
      | ok b =>
          cases b with
          | false => rw [updateLoopStep, hel] at hfin; simp [finalState] at hfin
          | true =>
              cases b1 with
              | true =>
                  rw [updateLoopStep, hel, hc] at hfin
                  simp [finalState] at hfin
              | false =>
                  rw [updateLoopStep, hel, hc]
                  exact Or.inr (by simp)
    · intro e e2 heli hdr _ _
      rw [hc] at hdr
      exact absurd hdr (by simp)
    · intro _
      cases el with
      | error e => rw [updateLoopStep, hel]
      | ok b =>
          cases b with
          | false => rw [updateLoopStep, hel]
          | true => rw [updateLoopStep, hel, hc]
  · -- drain succeeded; the iteration proceeds to the update command.
    obtain ⟨sr, hsr⟩ : ∃ r, sendCommand env.applySendEnv [inst.instanceID] = r := ⟨_, rfl⟩
    refine ⟨?_, ?_, ?_⟩
    · intro hfin
      cases el with
      | error e => rw [updateLoopStep, hel] at hfin; simp [finalState] at hfin
      | ok b =>
          cases b with
          | false => rw [updateLoopStep, hel] at hfin; simp [finalState] at hfin
          | true =>
              cases sr with
              | error se =>
                  obtain ⟨b2, hb2, _⟩ := activateInstance_evs env.activateAfterUpdateRes
                  obtain ⟨a1, ha1⟩ :
                      ∃ r, (activateInstance env.activateAfterUpdateRes).1 = r := ⟨_, rfl⟩
                  cases a1 with
                  | error e2 =>
                      rw [updateLoopStep, hel, hc, hsr]
                      simp only [ha1]
                      exact Or.inl (by simp)
                  | ok u =>
                      cases b2 with
                      | true =>
                          rw [updateLoopStep, hel, hc, hsr] at hfin
                          simp only [ha1, hb2] at hfin
                          simp [finalState] at hfin
                      | false =>
                          rw [updateLoopStep, hel, hc, hsr]
                          simp only [ha1, hb2]
                          exact Or.inr (by simp)
              | ok cid =>
                  cases hw : env.waitOkRes with
                  | some e =>
                      rw [updateLoopStep, hel, hc, hsr, hw]
                      exact Or.inl (by simp)
                  | none =>
                      obtain ⟨b2, hb2, _⟩ := activateInstance_evs env.activateAfterRebootRes
                      obtain ⟨a1, ha1⟩ :
                          ∃ r, (activateInstance env.activateAfterRebootRes).1 = r := ⟨_, rfl⟩
                      cases a1 with
                      | error e2 =>
                          rw [updateLoopStep, hel, hc, hsr, hw]
                          simp only [ha1]
                          exact Or.inl (by simp)
                      | ok u =>
                          cases b2 with
                          | true =>
                              rw [updateLoopStep, hel, hc, hsr, hw] at hfin
                              simp only [ha1, hb2] at hfin
                              simp [finalState] at hfin
                          | false =>
                              rw [updateLoopStep, hel, hc, hsr, hw]
                              simp only [ha1, hb2]
                              exact Or.inr (by simp)
    · intro e e2 heli hdr hsend hact
      rw [updateLoopStep, heli, hc, hsend]
      simp [hact]
    · intro hdr
      rw [hc] at hdr
      exact absurd rfl hdr

/-- C1 counterexample: after a drain-wait timeout whose reactivation
attempt fails, the iteration does NOT abort the run (the loop advances,
so the run can exit 0) and the host is left in DRAINING state. -/
theorem updateLoopStep_left_draining_counterexample :
    (updateLoopStep stepEnvC1 instC1).1 = none ∧
    finalState (updateLoopStep stepEnvC1 instC1).2 = .DRAINING := by
  decide

/-- Witness for the amended C1 at the same run: the host is left
DRAINING only because a reactivation attempt was made and failed. -/
theorem updateLoopStep_reactivation_rule_witness :
    (updateLoopStep stepEnvC1 instC1).1 ≠ none ∨
      .setState .ACTIVE false ∈ (updateLoopStep stepEnvC1 instC1).2 :=
  (updateLoopStep_reactivation_rule stepEnvC1 instC1).1 (by decide)

theorem rebootPhase_trace (u : Updater) (env : UpdateEnv) :
    (∀ r, env.rebootSendRes = .ok r → ∀ tr,
      (rebootPhase u env tr).2 =
        tr ++ [.sendDoc u.rebootDocument false, .sleepSecs 15, .waitComputeOk])
  ∧ (∀ tr b d, Act.sendDoc d b ∈ (rebootPhase u env tr).2 →
      Act.sendDoc d b ∈ tr ∨ (d = u.rebootDocument ∧ b = false)) := by
  constructor
  · intro r hr tr
    rw [rebootPhase, hr]
    cases env.waitOkRes <;> rfl
  · intro tr b d hm
    rw [rebootPhase] at hm
    have hsplit : ∀ tl : List Act, Act.sendDoc d b ∈ tr ++ tl →
        (∀ x ∈ tl, x = Act.sendDoc u.rebootDocument false ∨ x = Act.sleepSecs 15 ∨
          x = Act.waitComputeOk) →
        Act.sendDoc d b ∈ tr ∨ (d = u.rebootDocument ∧ b = false) := by
      intro tl hmem hshape
      rcases List.mem_append.mp hmem with h | h
      · exact Or.inl h
      · rcases hshape _ h with h1 | h1 | h1
        · injection h1 with ha hb
          exact Or.inr ⟨ha, hb⟩
        · exact absurd h1 (by simp)
        · exact absurd h1 (by simp)
    cases hr : env.rebootSendRes with
    | error e =>
        rw [hr] at hm
        simp only [] at hm
        exact hsplit _ hm (by intro x hx; simp at hx; simp [hx])
    | ok r =>
        rw [hr] at hm
        obtain ⟨w, hwk⟩ : ∃ w, env.waitOkRes = w := ⟨_, rfl⟩
        rw [hwk] at hm
        cases w with
        | some e =>
            simp only [] at hm
            exact hsplit _ hm (by
              intro x hx
              rcases List.mem_cons.mp hx with h | hx2
              · exact Or.inl h
              · rcases List.mem_cons.mp hx2 with h | hx3
                · exact Or.inr (Or.inl h)
                · rcases List.mem_cons.mp hx3 with h | hx4
                  · exact Or.inr (Or.inr h)
                  · exact absurd hx4 (by simp))
        | none =>
            simp only [] at hm
            exact hsplit _ hm (by
              intro x hx
              rcases List.mem_cons.mp hx with h | hx2
              · exact Or.inl h
              · rcases List.mem_cons.mp hx2 with h | hx3
                · exact Or.inr (Or.inl h)
                · rcases List.mem_cons.mp hx3 with h | hx4
                  · exact Or.inr (Or.inr h)
                  · exact absurd hx4 (by simp))

/-- C3.  With a parsed check output: Ready sends the reboot document
without the apply document; Available sends apply and then reboot; Idle
succeeds with neither; Staged and unknown states fail the host with the
corresponding error; and the reboot document is posted directly without
waiters, followed by the 15 second sleep and the compute-Ok wait. -/
theorem updateInstance_state_rule (u : Updater) (env : UpdateEnv) (inst : Instance)
    (cid : String) (raw : Json) (check : checkOutput)
    (hsend : sendCommand env.checkSendEnv [inst.instanceID] = .ok cid)
    (hget : getCommandResult (env.checkInvocation cid) = .ok raw)
    (hparse : parseCommandOutput raw = .ok check)
    (hdocs : u.applyDocument ≠ u.checkDocument ∧ u.applyDocument ≠ u.rebootDocument) :
    (check.UpdateState = updateStateReady →
      updateInstance u env inst = rebootPhase u env [.sendDoc u.checkDocument true])
  ∧ (check.UpdateState = updateStateAvailable →
      (∀ e, sendCommand env.applySendEnv [inst.instanceID] = .error e →
        updateInstance u env inst = (.error (.wrap "failed to send update apply command" e),
          [.sendDoc u.checkDocument true, .sendDoc u.applyDocument true]))
    ∧ (∀ a, sendCommand env.applySendEnv [inst.instanceID] = .ok a →
        updateInstance u env inst =
          rebootPhase u env [.sendDoc u.checkDocument true, .sendDoc u.applyDocument true]))
  ∧ (check.UpdateState = updateStateIdle →
      updateInstance u env inst = (.ok (), [.sendDoc u.checkDocument true]))
  ∧ (check.UpdateState = updateStateStaged →
      updateInstance u env inst = (.error (.base ("unexpected update state \""
        ++ check.UpdateState ++ "\"; skipping instance")), [.sendDoc u.checkDocument true]))
  ∧ (check.UpdateState ≠ updateStateIdle → check.UpdateState ≠ updateStateStaged →
      check.UpdateState ≠ updateStateAvailable → check.UpdateState ≠ updateStateReady →
      updateInstance u env inst = (.error (.base ("unknown update state \""
        ++ check.UpdateState ++ "\"")), [.sendDoc u.checkDocument true]))
  ∧ (check.UpdateState = updateStateReady →
      ∀ b, Act.sendDoc u.applyDocument b ∉ (updateInstance u env inst).2)
  ∧ (∀ r, env.rebootSendRes = .ok r → ∀ tr,
      (rebootPhase u env tr).2 =
        tr ++ [.sendDoc u.rebootDocument false, .sleepSecs 15, .waitComputeOk])
  ∧ (∀ tr b d, Act.sendDoc d b ∈ (rebootPhase u env tr).2 →
      Act.sendDoc d b ∈ tr ∨ (d = u.rebootDocument ∧ b = false)) := by
  have hready : check.UpdateState = updateStateReady →
      updateInstance u env inst = rebootPhase u env [.sendDoc u.checkDocument true] := by
    intro hR
    have h1 : (check.UpdateState == updateStateIdle) = false := by rw [hR]; decide
    have h2 : (check.UpdateState == updateStateStaged) = false := by rw [hR]; decide
    have h3 : (check.UpdateState == updateStateAvailable) = false := by rw [hR]; decide
    have h4 : (check.UpdateState == updateStateReady) = true := by rw [hR]; decide
    rw [updateInstance, hsend]
    simp only []
    rw [hget]
    simp only []
    rw [hparse]
    simp only []
    simp [h1, h2, h3, h4]
  refine ⟨hready, ?_, ?_, ?_, ?_, ?_, (rebootPhase_trace u env).1, (rebootPhase_trace u env).2⟩
  · intro hA
    have h1 : (check.UpdateState == updateStateIdle) = false := by rw [hA]; decide
    have h2 : (check.UpdateState == updateStateStaged) = false := by rw [hA]; decide
    have h3 : (check.UpdateState == updateStateAvailable) = true := by rw [hA]; decide
    constructor
    · intro e he
      rw [updateInstance, hsend]
      simp only []
      rw [hget]
      simp only []
      rw [hparse]
      simp only []
      simp [h1, h2, h3, he]
    · intro a ha
      rw [updateInstance, hsend]
      simp only []
      rw [hget]
      simp only []
      rw [hparse]
      simp only []
      simp [h1, h2, h3, ha]
  · intro hI
    have h1 : (check.UpdateState == updateStateIdle) = true := by rw [hI]; decide
    rw [updateInstance, hsend]
    simp only []
    rw [hget]
    simp only []
    rw [hparse]
    simp only []
    simp [h1]
  · intro hS
    have h1 : (check.UpdateState == updateStateIdle) = false := by rw [hS]; decide
    have h2 : (check.UpdateState == updateStateStaged) = true := by rw [hS]; decide
    rw [updateInstance, hsend]
    simp only []
    rw [hget]
    simp only []
    rw [hparse]
    simp only []
    simp [h1, h2]
  · intro hn1 hn2 hn3 hn4
    have h1 : (check.UpdateState == updateStateIdle) = false := beq_eq_false_iff_ne.mpr hn1
    have h2 : (check.UpdateState == updateStateStaged) = false := beq_eq_false_iff_ne.mpr hn2
    have h3 : (check.UpdateState == updateStateAvailable) = false := beq_eq_false_iff_ne.mpr hn3
    have h4 : (check.UpdateState == updateStateReady) = false := beq_eq_false_iff_ne.mpr hn4
    rw [updateInstance, hsend]
    simp only []
    rw [hget]
    simp only []
    rw [hparse]
    simp only []
    simp [h1, h2, h3, h4]
  · intro hR b hmem
    rw [hready hR] at hmem
    rcases (rebootPhase_trace u env).2 _ _ _ hmem with h | h
    · rw [List.mem_singleton] at h
      injection h with ha _
      exact hdocs.1 ha
    · exact hdocs.2 h.1

/-- Witness for C3: a Ready host gets the reboot document (unawaited),
the sleep and the compute-Ok wait, and never the apply document. -/
theorem updateInstance_state_rule_witness :
    updateInstance updC3 envC3 instC3 =
      (.ok (), [.sendDoc "check-doc" true, .sendDoc "reboot-doc" false,
        .sleepSecs 15, .waitComputeOk]) := by
  have h := (updateInstance_state_rule updC3 envC3 instC3 "cmd-check" jsonReadyC3
    { UpdateState := "Ready", ActivePartition := { Image := { Version := "1.1.0" } } }
    (by decide) rfl (by decide) (by decide)).1 (by decide)
  rw [h]
  decide

/-- C7.  After a successful post-reboot check parse, the verifier
reports not-updated exactly when the reported active version equals the
stored pre-update version (this comparison takes precedence over the
update_state check); any differing version reports updated, with the
newer-available message when update_state is Available. -/
theorem verifyUpdate_version_rule (env : VerifyEnv) (inst : Instance)
    (cid : String) (raw : Json) (output : checkOutput)
    (hsend : sendCommand env.checkSendEnv [inst.instanceID] = .ok cid)
    (hget : getCommandResult (env.checkInvocation cid) = .ok raw)
    (hparse : parseCommandOutput raw = .ok output) :
    (output.ActivePartition.Image.Version = inst.bottlerocketVersion →
      verifyUpdate env inst = .ok (false, .didNotUpdate))
  ∧ (output.ActivePartition.Image.Version ≠ inst.bottlerocketVersion →
      output.UpdateState = updateStateAvailable →
      verifyUpdate env inst = .ok (true, .newerAvailable))
  ∧ (output.ActivePartition.Image.Version ≠ inst.bottlerocketVersion →
      output.UpdateState ≠ updateStateAvailable →
      verifyUpdate env inst = .ok (true, .updatedOk))
  ∧ (∀ b m, verifyUpdate env inst = .ok (b, m) →
      (b = false ↔ output.ActivePartition.Image.Version = inst.bottlerocketVersion)) := by
  have hstep : ∀ r, verifyUpdate env inst = r ↔
      (if output.ActivePartition.Image.Version == inst.bottlerocketVersion then
        (.ok (false, .didNotUpdate) : Res (Bool × VerifyMsg))
      else if output.UpdateState == updateStateAvailable then
        .ok (true, .newerAvailable)
      else
        .ok (true, .updatedOk)) = r := by
    intro r
    rw [verifyUpdate, hsend]
    simp only []
    rw [hget]
    simp only []
    rw [hparse]
  refine ⟨?_, ?_, ?_, ?_⟩
  · intro hv
    rw [hstep]
    rw [if_pos (by simpa [beq_iff_eq] using hv)]
  · intro hv hs
    rw [hstep]
    rw [if_neg (by simp [beq_iff_eq]; exact hv), if_pos (by simpa [beq_iff_eq] using hs)]
  · intro hv hs
    rw [hstep]
    rw [if_neg (by simp [beq_iff_eq]; exact hv), if_neg (by simp [beq_iff_eq]; exact hs)]
  · intro b m hr
    rw [hstep] at hr
    by_cases hv : output.ActivePartition.Image.Version = inst.bottlerocketVersion
    · rw [if_pos (by simpa [beq_iff_eq] using hv)] at hr
      injection hr with hp
      injection hp with hb _
      simp [← hb, hv]
    · constructor
      · intro hb
        rw [if_neg (by simp [beq_iff_eq]; exact hv)] at hr
        by_cases hs : (output.UpdateState == updateStateAvailable) = true
        · rw [if_pos hs] at hr
          injection hr with hp
          injection hp with hb2 _
          rw [hb] at hb2
          exact absurd hb2 (by decide)
        · rw [if_neg hs] at hr
          injection hr with hp
          injection hp with hb2 _
          rw [hb] at hb2
          exact absurd hb2 (by decide)
      · intro hveq
        exact absurd hveq hv

/-- Witness for C7: version moved from 1.0.0 to 1.1.0 with state Idle
reports updated. -/
theorem verifyUpdate_version_rule_witness :
    verifyUpdate envC7 instC7 = .ok (true, .updatedOk) :=
  (verifyUpdate_version_rule envC7 instC7 "cmd-verify" jsonIdleC7
    { UpdateState := "Idle", ActivePartition := { Image := { Version := "1.1.0" } } }
    (by decide) rfl (by decide)).2.2.1 (by decide) (by decide)

/-- C10.  parseCommandOutput succeeds on any JSON object whose
update_state and active_partition.image.version fields are non-empty
strings, whatever the update_state value; membership in the known state
set is enforced only by updateInstance's switch, which rejects such
values with an "unknown update state" error. -/
theorem parseCommandOutput_fields_rule :
    (∀ us v, us ≠ "" → v ≠ "" →
      parseCommandOutput (mkCheckJson us v) =
        .ok { UpdateState := us, ActivePartition := { Image := { Version := v } } })
  ∧ (∀ j o, decodeCheckOutput j = .ok o →
      (parseCommandOutput j = .ok o ↔
        (o.UpdateState ≠ "" ∧ o.ActivePartition.Image.Version ≠ "")))
  ∧ (∀ (u : Updater) (env : UpdateEnv) (inst : Instance) (cid : String) (raw : Json)
      (check : checkOutput),
      sendCommand env.checkSendEnv [inst.instanceID] = .ok cid →
      getCommandResult (env.checkInvocation cid) = .ok raw →
      parseCommandOutput raw = .ok check →
      check.UpdateState ≠ updateStateIdle → check.UpdateState ≠ updateStateStaged →
      check.UpdateState ≠ updateStateAvailable → check.UpdateState ≠ updateStateReady →
      (updateInstance u env inst).1 = .error (.base ("unknown update state \""
        ++ check.UpdateState ++ "\""))) := by
  refine ⟨?_, ?_, ?_⟩
  · intro us v hus hv
    have hdec : decodeCheckOutput (mkCheckJson us v) =
        .ok { UpdateState := us, ActivePartition := { Image := { Version := v } } } := rfl
    rw [parseCommandOutput]
    simp only [hdec]
    simp [beq_eq_false_iff_ne.mpr hus, beq_eq_false_iff_ne.mpr hv]
  · intro j o hdec
    rw [parseCommandOutput]
    simp only [hdec]
    by_cases h1 : o.UpdateState = ""
    · have hb1 : (o.UpdateState == "") = true := by simpa [beq_iff_eq] using h1
      simp [hb1, h1]
    · by_cases h2 : o.ActivePartition.Image.Version = ""
      · have hb2 : (o.ActivePartition.Image.Version == "") = true := by
          simpa [beq_iff_eq] using h2
        simp [hb2, h2]
      · simp [beq_eq_false_iff_ne.mpr h1, beq_eq_false_iff_ne.mpr h2, h1, h2]
  · intro u env inst cid raw check hsend hget hparse hn1 hn2 hn3 hn4
    have h1 : (check.UpdateState == updateStateIdle) = false := beq_eq_false_iff_ne.mpr hn1
    have h2 : (check.UpdateState == updateStateStaged) = false := beq_eq_false_iff_ne.mpr hn2
    have h3 : (check.UpdateState == updateStateAvailable) = false := beq_eq_false_iff_ne.mpr hn3
    have h4 : (check.UpdateState == updateStateReady) = false := beq_eq_false_iff_ne.mpr hn4
    rw [updateInstance, hsend]
    simp only []
    rw [hget]
    simp only []
    rw [hparse]
    simp only []
    simp [h1, h2, h3, h4]

/-- Witness for C10: a state outside the known four still parses. -/
theorem parseCommandOutput_fields_rule_witness :
    parseCommandOutput (mkCheckJson "SomeFutureState" "1.2.3") =
      .ok { UpdateState := "SomeFutureState",
            ActivePartition := { Image := { Version := "1.2.3" } } } :=
  parseCommandOutput_fields_rule.1 "SomeFutureState" "1.2.3" (by decide) (by decide)
